import Mathlib

/-!
# Verification of the wg-easy client lifecycle & sync engine

A shallow embedding of the WireGuard service (`createClient`, config
rendering, `cronJob`, `Startup`), the LowDB client repository mutators
(`toggle`, `updateAddress4`, `deleteOneTimeLink`, ...) and the user
repositories (`InMemory.newUserWithPassword`/`saveUser`,
`LowDBUser.create`/`update`), together with theorems settling the spec's
claims about them.

Modelling conventions:
* IP addresses are kept as their numeric value (the bigint produced by
  `parseCidr` / consumed by `stringifyIp`); `stringifyIp` is injective on a
  fixed family, so comparing numbers is equivalent to comparing the rendered
  strings the source stores.
* A CIDR pool is represented by its parsed bounds (`parseCidr` returns
  `{start, end}`); the string parsing itself is not modelled.
* Timestamps (`Date.now()`, ISO strings) are milliseconds as `Nat`;
  `new Date(a) > new Date(b)` becomes `b < a`.
* The client registry is a `Record<string, Client>` in the source; it is
  modelled as a `List Client` in insertion order (`Object.values` order),
  with the repository mutators updating the entry whose `id` matches.
* External effects (database writes, config-file writes, `wg sync`) are
  reified as an `Action` list so that "nothing persisted, no sync invoked"
  is directly statable.
* Externally generated inputs (key material, UUIDs, `Date.now()`, bcrypt
  hashing, password-strength policy) are passed as explicit parameters.
-/

namespace WgEasy

/-- A parsed CIDR pool: the numeric first and last address of the range, as
returned by `parseCidr` (`start`/`end`). -/
structure Cidr where
  start : Nat
  last : Nat
deriving DecidableEq

/-- A one-time link record: the token and its expiry timestamp. -/
structure OneTimeLink where
  oneTimeLink : String
  expiresAt : Nat
deriving DecidableEq

/-- A VPN client, with the fields of `NewClient` as built by
`WireGuard.createClient` plus the `createdAt`/`updatedAt` timestamps added
by the repository `create`. -/
structure Client where
  id : String
  name : String
  address4 : Nat
  address6 : Nat
  privateKey : String
  publicKey : String
  preSharedKey : String
  endpoint : Option String
  oneTimeLink : Option OneTimeLink
  expiresAt : Option Nat
  enabled : Bool
  allowedIPs : List String
  serverAllowedIPs : Option (List String)
  persistentKeepalive : Nat
  createdAt : Nat
  updatedAt : Nat
deriving DecidableEq

/-- The per-client defaults of the system record (`system.userConfig`),
restricted to the fields `createClient` reads.  The address pools are kept
in parsed form (see `Cidr`). -/
structure WGConfig where
  address4Range : Cidr
  address6Range : Cidr
  allowedIps : List String
  persistentKeepalive : Nat
deriving DecidableEq

/-- A feature toggle (`system.clientExpiration` / `system.oneTimeLinks`). -/
structure Feature where
  enabled : Bool
deriving DecidableEq

/-- The singleton system configuration, restricted to the fields the
embedded operations read. -/
structure System where
  userConfig : WGConfig
  clientExpiration : Feature
  oneTimeLinks : Feature
deriving DecidableEq

/-- An HTTP-style error thrown with `createError`: status code, message and
the optional `data.cause` payload. -/
structure WgError where
  statusCode : Nat
  statusMessage : String
  cause : Option String
deriving DecidableEq

/-! ## Config renderer (`WireGuard.#saveWireguardConfig`) -/

/-- One block of the rendered `wg0.conf`: the `[Interface]` block rendered
from the system record, or one `[Peer]` block rendered from a client. -/
inductive ConfigBlock where
  | interfaceBlock (sys : System)
  | peerBlock (c : Client)
deriving DecidableEq

/-- The block structure of the full configuration written by
`#saveWireguardConfig`: the server interface first, then — looping over the
registry in iteration order — one peer block per client, skipping clients
with `enabled` false. -/
def saveWireguardConfigBlocks (sys : System) (clients : List Client) : List ConfigBlock :=
  clients.foldl
    (fun result client =>
      if !client.enabled then result else result ++ [ConfigBlock.peerBlock client])
    [ConfigBlock.interfaceBlock sys]

/-- The public keys carried by the peer blocks of a rendered config (each
peer block contains its client's `PublicKey` line). -/
def peerPublicKeys (blocks : List ConfigBlock) : List String :=
  blocks.filterMap (fun b =>
    match b with
    | ConfigBlock.interfaceBlock _ => none
    | ConfigBlock.peerBlock c => some c.publicKey)

/-! ## Address allocation (`WireGuard.createClient`, lines 137-180) -/

/-- The candidate addresses scanned by the allocation loop
`for (let i = cidr.start + 2n; i <= cidr.end - 1n; i++)`:
`start + 2, start + 3, ..., last - 1`, in scan order. -/
def poolAddresses (p : Cidr) : List Nat :=
  (List.range (p.last - p.start - 2)).map (fun k => p.start + 2 + k)

/-- The v4 allocation scan: the first candidate address for which
`Object.values(clients).find(c => c.address4 === currentIp4)` finds no
client. -/
def findFreeAddress4 (clients : List Client) (p : Cidr) : Option Nat :=
  (poolAddresses p).find? (fun ip => (clients.find? (fun c => c.address4 == ip)).isNone)

/-- The v6 allocation scan, identical to the v4 one but over `address6`. -/
def findFreeAddress6 (clients : List Client) (p : Cidr) : Option Nat :=
  (poolAddresses p).find? (fun ip => (clients.find? (fun c => c.address6 == ip)).isNone)

/-! ## The sync-engine operations as state transformers -/

/-- An external effect performed by a sync-engine operation. -/
inductive Effect where
  | dbCreateClient (c : Client)
  | writeConfig (blocks : List ConfigBlock)
  | wgSync
deriving DecidableEq

/-- The outcome of running a sync-engine operation: the registry afterwards,
the effects performed, and the thrown error if any (a thrown error aborts
the operation, so the registry at the throw site is the registry before the
operation). -/
structure RunResult where
  clients : List Client
  actions : List Effect
  err : Option WgError
deriving DecidableEq

/-- `WireGuard.createClient`, embedded.  The externally generated inputs
(key material from the command gateway, the UUID, `Date.now()`) and the
local-time end-of-day normalization applied to `expireDate` are passed as
parameters.  On success it persists the new client (`Database.createClient`)
and runs `saveConfig` = write `wg0.conf` + `wg sync`. -/
def createClient (sys : System) (clients : List Client)
    (privateKey publicKey preSharedKey : String) (uuid : String) (now : Nat)
    (endOfDay : Nat → Nat) (name : String) (expireDate : Option Nat) : RunResult :=
  match findFreeAddress4 clients sys.userConfig.address4Range with
  | none =>
      { clients := clients, actions := [],
        err := some { statusCode := 409,
                      statusMessage := "Maximum number of clients reached.",
                      cause := some "IPv4 Address Pool exhausted" } }
  | some address4 =>
      match findFreeAddress6 clients sys.userConfig.address6Range with
      | none =>
          { clients := clients, actions := [],
            err := some { statusCode := 409,
                          statusMessage := "Maximum number of clients reached.",
                          cause := some "IPv6 Address Pool exhausted" } }
      | some address6 =>
          let client : Client :=
            { id := uuid, name := name, address4 := address4, address6 := address6,
              privateKey := privateKey, publicKey := publicKey,
              preSharedKey := preSharedKey, endpoint := none, oneTimeLink := none,
              expiresAt := expireDate.map endOfDay, enabled := true,
              allowedIPs := sys.userConfig.allowedIps, serverAllowedIPs := none,
              persistentKeepalive := sys.userConfig.persistentKeepalive,
              createdAt := now, updatedAt := now }
          let clients' := clients ++ [client]
          { clients := clients',
            actions := [Effect.dbCreateClient client,
                        Effect.writeConfig (saveWireguardConfigBlocks sys clients'),
                        Effect.wgSync],
            err := none }

/-! ## LowDB client repository mutators -/

/-- The `if (data.clients[id]) { mutate }` pattern shared by all LowDB
client mutators: apply `g` to the client whose key is `id`, leave the rest
(and a registry with no such key) unchanged. -/
def updateById (clients : List Client) (id : String) (g : Client → Client) : List Client :=
  clients.map (fun c => if c.id == id then g c else c)

/-- `LowDBClient.toggle`. -/
def toggleClient (clients : List Client) (id : String) (enable : Bool) : List Client :=
  updateById clients id (fun c => { c with enabled := enable })

/-- `LowDBClient.updateName`. -/
def updateClientName (clients : List Client) (id : String) (name : String) : List Client :=
  updateById clients id (fun c => { c with name := name })

/-- `LowDBClient.updateAddress4`: writes the given address unconditionally
(no uniqueness check against other clients). -/
def updateAddress4 (clients : List Client) (id : String) (address4 : Nat) : List Client :=
  updateById clients id (fun c => { c with address4 := address4 })

/-- `LowDBClient.updateExpirationDate`. -/
def updateExpirationDate (clients : List Client) (id : String)
    (expirationDate : Option Nat) : List Client :=
  updateById clients id (fun c => { c with expiresAt := expirationDate })

/-- `LowDBClient.createOneTimeLink`. -/
def createOneTimeLink (clients : List Client) (id : String) (link : OneTimeLink) :
    List Client :=
  updateById clients id (fun c => { c with oneTimeLink := some link })

/-- `LowDBClient.deleteOneTimeLink`: when the client has a link, the link is
NOT removed — its `expiresAt` is set to `Date.now() + 10 * 1000` (a comment
in the source explains this tolerates the client's double request); with no
link the client is untouched. -/
def deleteOneTimeLink (now : Nat) (clients : List Client) (id : String) : List Client :=
  updateById clients id (fun c =>
    match c.oneTimeLink with
    | some l => { c with oneTimeLink := some { l with expiresAt := now + 10 * 1000 } }
    | none => c)

/-- `LowDBClient.delete`: `delete data.clients[id]` removes the entry,
keeping the others in order. -/
def deleteClient (clients : List Client) (id : String) : List Client :=
  clients.filter (fun c => !(c.id == id))

/-! ## Reconciliation loop (`WireGuard.cronJob`) -/

/-- The expiration check of the cron pass, on the snapshot entry: the client
is enabled and `new Date() > new Date(client.expiresAt)` with a non-null
`expiresAt`. -/
def cronExpired (now : Nat) (c : Client) : Bool :=
  match c.expiresAt with
  | some e => e < now
  | none => false

/-- The one-time-link check of the cron pass, on the snapshot entry: the
link is non-null and `new Date() > new Date(client.oneTimeLink.expiresAt)`. -/
def cronLinkExpired (now : Nat) (c : Client) : Bool :=
  match c.oneTimeLink with
  | some l => l.expiresAt < now
  | none => false

/-- The expiration pass of `cronJob`: loop over the snapshot fetched at the
start of the pass and `Database.toggleClient(id, false)` every enabled
client whose expiration is past. -/
def cronExpirePass (now : Nat) (snapshot st : List Client) : List Client :=
  snapshot.foldl
    (fun acc c =>
      if !c.enabled then acc
      else if cronExpired now c then toggleClient acc c.id false
      else acc)
    st

/-- The one-time-link pass of `cronJob`: loop over the same snapshot and
`Database.deleteOneTimeLink(id)` every client whose link expiry is past. -/
def cronLinkPass (now : Nat) (snapshot st : List Client) : List Client :=
  snapshot.foldl
    (fun acc c => if cronLinkExpired now c then deleteOneTimeLink now acc c.id else acc)
    st

/-- `WireGuard.cronJob`: fetch the client snapshot and the system record
once, then run the expiration pass (when the expiration feature is enabled)
followed by the one-time-link pass (when that feature is enabled). -/
def cronJob (sys : System) (now : Nat) (clients : List Client) : List Client :=
  let st1 := if sys.clientExpiration.enabled then cronExpirePass now clients clients
             else clients
  if sys.oneTimeLinks.enabled then cronLinkPass now clients st1 else st1

/-! ## Startup (`WireGuard.Startup`) -/

/-- The steps `Startup` performs after its wait promise resolves, in source
order. -/
inductive StartupStep where
  | saveConfig
  | wgDown
  | wgUp
  | wgSync
  | startCronJob
deriving DecidableEq

/-- The tick (in units of the 1000 ms timeout) at which `Startup`'s `wait`
callback runs: `setTimeout(wait, 1000)` schedules it exactly once, and the
callback body does not reschedule itself. -/
def startupCheckTicks : List Nat := [1]

/-- Whether `Startup`'s wait promise ever resolves, given the trace
`connected t` of `Database.connected` at tick `t`: it resolves iff
`Database.connected` is true at one of the (single) scheduled callback
runs. -/
def startupProceeds (connected : Nat → Bool) : Bool :=
  startupCheckTicks.any (fun t => connected t)

/-- The steps `Startup` ever performs, given the connectivity trace: the
save / down / up / sync / cron sequence when the wait promise resolves,
nothing at all when it never resolves. -/
def startupSteps (connected : Nat → Bool) : List StartupStep :=
  if startupProceeds connected then
    [StartupStep.saveConfig, StartupStep.wgDown, StartupStep.wgUp,
     StartupStep.wgSync, StartupStep.startCronJob]
  else []

/-! ## User repositories -/

/-- A user role. -/
inductive Role where
  | admin
  | client
deriving DecidableEq

/-- A user record, with the fields built by `InMemory.newUserWithPassword`;
the LowDB `create` additionally sets a `name` field, modelled as `none` for
the in-memory backend. -/
structure User where
  id : String
  password : String
  username : String
  name : Option String
  role : Role
  enabled : Bool
  createdAt : Nat
  updatedAt : Nat
deriving DecidableEq

/-- The errors thrown by `InMemory.newUserWithPassword` (`DatabaseError`
codes). -/
inductive DatabaseError where
  | errorUsernameLen
  | errorPasswordReq
  | errorUserExist
deriving DecidableEq

/-- The in-memory provider's data (`InMemoryData`), restricted to the users
collection the user claims are about. -/
structure InMemoryData where
  users : List User
deriving DecidableEq

/-- `InMemory.getUser` for a raw string id. -/
def getUser (data : InMemoryData) (id : String) : Option User :=
  data.users.find? (fun u => u.id == id)

/-- `InMemory.newUserWithPassword`.  The password-strength policy
(`isPasswordStrong`) and the bcrypt hash are injected parameters; `now` is
`new Date()`.  Validation failures throw before anything is pushed, so they
return the error with no new state. -/
def newUserWithPassword (strong : String → Bool) (hashPw : String → String) (now : Nat)
    (data : InMemoryData) (username password : String) :
    Except DatabaseError InMemoryData :=
  if username.length < 8 then
    Except.error DatabaseError.errorUsernameLen
  else if !strong password then
    Except.error DatabaseError.errorPasswordReq
  else
    match data.users.find? (fun u => u.username == username) with
    | some _ => Except.error DatabaseError.errorUserExist
    | none =>
        let newUser : User :=
          { id := toString (data.users.length + 1),
            password := hashPw password,
            username := username,
            name := none,
            role := if data.users.length = 0 then Role.admin else Role.client,
            enabled := true,
            createdAt := now,
            updatedAt := now }
        Except.ok { data with users := data.users ++ [newUser] }

/-- `InMemory.saveUser`: looks the user up by id and, when found, reassigns
the LOCAL alias (`_user = user`) — no write into `this.data.users` happens
in either branch, so the stored collection is returned as it was. -/
def saveUser (data : InMemoryData) (user : User) : InMemoryData :=
  match getUser data user.id with
  | some _u => data
  | none => data

/-- `LowDBUser.create`: duplicate-username check, then push.  Unlike the
in-memory backend it performs NO username-length and NO password-strength
validation; `hashPw`, `now` and the generated UUID are parameters. -/
def lowdbUserCreate (hashPw : String → String) (now : Nat) (uuid : String)
    (users : List User) (username password : String) :
    Except WgError (List User) :=
  match users.find? (fun u => u.username == username) with
  | some _ =>
      Except.error { statusCode := 409, statusMessage := "Username already taken",
                     cause := none }
  | none =>
      let newUser : User :=
        { id := uuid,
          password := hashPw password,
          username := username,
          name := some "Administrator",
          role := if users.length = 0 then Role.admin else Role.client,
          enabled := true,
          createdAt := now,
          updatedAt := now }
      Except.ok (users ++ [newUser])

/-- `LowDBUser.update`: finds the stored record by `user.id`, reassigns the
LOCAL alias (`oldUser = user`) and flushes the (unchanged) document — the
stored collection is returned as it was in both branches. -/
def lowdbUserUpdate (users : List User) (user : User) : List User :=
  match users.find? (fun u => u.id == user.id) with
  | some _oldUser => users
  | none => users

/-- States of the in-memory users collection reachable from the empty
collection by a sequence of successful `newUserWithPassword` calls (the
policy, hash, timestamp and credentials of each call are arbitrary). -/
inductive ReachableUsers : List User → Prop where
  | init : ReachableUsers []
  | step (users : List User) (strong : String → Bool) (hashPw : String → String)
      (now : Nat) (username password : String) (users' : List User) :
      ReachableUsers users →
      newUserWithPassword strong hashPw now ⟨users⟩ username password =
        Except.ok ⟨users'⟩ →
      ReachableUsers users'

/-- States of the LowDB users collection reachable from the empty collection
by a sequence of successful `LowDBUser.create` calls. -/
inductive ReachableLowUsers : List User → Prop where
  | init : ReachableLowUsers []
  | step (users : List User) (hashPw : String → String) (now : Nat)
      (uuid username password : String) (users' : List User) :
      ReachableLowUsers users →
      lowdbUserCreate hashPw now uuid users username password = Except.ok users' →
      ReachableLowUsers users'

/-! ## Concrete sample data (used by witnesses and counterexamples) -/

/-- A sample client holding addresses `2`/`2`. -/
def clientA : Client :=
  { id := "a", name := "A", address4 := 2, address6 := 2,
    privateKey := "privA", publicKey := "pubA", preSharedKey := "pskA",
    endpoint := none, oneTimeLink := none, expiresAt := none, enabled := true,
    allowedIPs := [], serverAllowedIPs := none, persistentKeepalive := 0,
    createdAt := 0, updatedAt := 0 }

/-- A sample client holding addresses `3`/`3`, with an expiration timestamp
and a one-time link. -/
def clientB : Client :=
  { id := "b", name := "B", address4 := 3, address6 := 3,
    privateKey := "privB", publicKey := "pubB", preSharedKey := "pskB",
    endpoint := none, oneTimeLink := some { oneTimeLink := "tok", expiresAt := 30 },
    expiresAt := some 50, enabled := true,
    allowedIPs := [], serverAllowedIPs := none, persistentKeepalive := 0,
    createdAt := 0, updatedAt := 0 }

/-- A sample disabled client. -/
def clientC : Client :=
  { id := "c", name := "C", address4 := 4, address6 := 4,
    privateKey := "privC", publicKey := "pubC", preSharedKey := "pskC",
    endpoint := none, oneTimeLink := none, expiresAt := none, enabled := false,
    allowedIPs := [], serverAllowedIPs := none, persistentKeepalive := 0,
    createdAt := 0, updatedAt := 0 }

/-- A sample system whose pools hold the candidate addresses `2..5`. -/
def systemA : System :=
  { userConfig := { address4Range := { start := 0, last := 6 },
                    address6Range := { start := 0, last := 6 },
                    allowedIps := ["0.0.0.0/0"], persistentKeepalive := 0 },
    clientExpiration := { enabled := true },
    oneTimeLinks := { enabled := true } }

/-- A sample system whose v4 pool has no candidate address at all. -/
def systemB : System :=
  { userConfig := { address4Range := { start := 0, last := 2 },
                    address6Range := { start := 0, last := 6 },
                    allowedIps := [], persistentKeepalive := 0 },
    clientExpiration := { enabled := false },
    oneTimeLinks := { enabled := false } }

/-- A sample user. -/
def userA : User :=
  { id := "1", password := "pw", username := "adminadmin", name := none,
    role := Role.admin, enabled := true, createdAt := 0, updatedAt := 0 }

/-- A second sample user, as created into a one-element collection. -/
def userB : User :=
  { id := "2", password := "pw", username := "clientclient", name := none,
    role := Role.client, enabled := true, createdAt := 0, updatedAt := 0 }

/-- The LowDB counterparts of the two sample users. -/
def lowUserA : User :=
  { id := "u-1", password := "pw", username := "adminadmin",
    name := some "Administrator", role := Role.admin, enabled := true,
    createdAt := 0, updatedAt := 0 }

/-- Second LowDB sample user. -/
def lowUserB : User :=
  { id := "u-2", password := "pw", username := "clientclient",
    name := some "Administrator", role := Role.client, enabled := true,
    createdAt := 0, updatedAt := 0 }

/-- The address-uniqueness invariant on the registry: no two clients hold
the same IPv4 address and no two hold the same IPv6 address. -/
def addressesUnique (clients : List Client) : Prop :=
  (clients.map (fun c => c.address4)).Nodup ∧ (clients.map (fun c => c.address6)).Nodup

/-- The per-client effect of one `cronJob` pass, as established by the C6
lemmas: first the expiration pass may clear `enabled`, then the
one-time-link pass may push the link expiry out; both conditions are
evaluated on the snapshot entry, as in the source. -/
def cronClientStep (sys : System) (now : Nat) (c : Client) : Client :=
  let c1 := if sys.clientExpiration.enabled && (c.enabled && cronExpired now c) then
      { c with enabled := false } else c
  if sys.oneTimeLinks.enabled && cronLinkExpired now c then
    match c1.oneTimeLink with
    | some l => { c1 with oneTimeLink := some { l with expiresAt := now + 10 * 1000 } }
    | none => c1
  else c1

/-! ## Theorems -/

/-- Mapping a per-client field over `updateById` is invisible when the
update function preserves that field. -/
theorem map_field_updateById {β : Type} (l : List Client) (id : String) (g : Client → Client)
    (f : Client → β) (hg : ∀ c, f (g c) = f c) :
    (updateById l id g).map f = l.map f := by
  unfold updateById
  rw [List.map_map]
  exact List.map_congr_left (fun c _ => by
    by_cases h : c.id == id <;> simp [Function.comp, h, hg c])

/-- Appending a fresh element keeps a list duplicate-free. -/
theorem nodup_append_singleton {α : Type} (l : List α) (a : α)
    (h : l.Nodup) (ha : a ∉ l) : (l ++ [a]).Nodup := by
  simp [List.nodup_append, h, ha]

/-- Membership in a shifted `List.range`. -/
theorem mem_range_map (s n a : Nat) :
    a ∈ (List.range n).map (fun k => s + k) ↔ s ≤ a ∧ a < s + n := by
  simp only [List.mem_map, List.mem_range]
  constructor
  · rintro ⟨k, hk, rfl⟩
    omega
  · rintro ⟨h1, h2⟩
    exact ⟨a - s, by omega, by omega⟩

/-- The scan candidates are exactly the addresses from the base plus 2 up to
(not including) the pool's last address. -/
theorem mem_poolAddresses (p : Cidr) (a : Nat) :
    a ∈ poolAddresses p ↔ p.start + 2 ≤ a ∧ a < p.last := by
  unfold poolAddresses
  rw [mem_range_map]
  omega

/-- `find?` over a shifted `List.range` returns the least value satisfying
the predicate: the result satisfies it, lies in the scanned interval, and
every smaller scanned value fails it. -/
theorem find?_range_first (q : Nat → Bool) :
    ∀ (n s a : Nat), ((List.range n).map (fun k => s + k)).find? q = some a →
      q a = true ∧ s ≤ a ∧ a < s + n ∧ ∀ b, s ≤ b → b < a → q b = false := by
  intro n
  induction n with
  | zero => intro s a h; simp at h
  | succ m ih =>
    intro s a h
    rw [List.range_succ_eq_map, List.map_cons, List.map_map] at h
    have hmap : (List.range m).map ((fun k => s + k) ∘ Nat.succ) =
        (List.range m).map (fun k => (s + 1) + k) :=
      List.map_congr_left (fun k _ => by simp only [Function.comp_apply]; omega)
    rw [hmap] at h
    by_cases hq : q (s + 0)
    · rw [List.find?_cons_of_pos _ hq] at h
      obtain rfl : s + 0 = a := by injection h
      refine ⟨hq, by omega, by omega, fun b hb1 hb2 => absurd hb2 (by omega)⟩
    · rw [List.find?_cons_of_neg _ hq] at h
      obtain ⟨hqa, hle, hlt, hmin⟩ := ih (s + 1) a h
      refine ⟨hqa, by omega, by omega, fun b hb1 hb2 => ?_⟩
      rcases Nat.eq_or_lt_of_le hb1 with hb | hb
      · have : b = s + 0 := by omega
        rw [this]
        exact Bool.eq_false_iff.mpr (fun hb0 => hq (by simpa using hb0))
      · exact hmin b (by omega) hb2


/-- The config-writing fold, unfolded: whatever blocks were accumulated so
far stay in front, and the loop appends one peer block per enabled client in
iteration order. -/
theorem foldl_peer_blocks (clients : List Client) (init : List ConfigBlock) :
    clients.foldl
      (fun result client =>
        if !client.enabled then result else result ++ [ConfigBlock.peerBlock client])
      init =
      init ++ (clients.filter (fun c => c.enabled)).map ConfigBlock.peerBlock := by
  induction clients generalizing init with
  | nil => simp
  | cons c cs ih =>
    rw [List.foldl_cons]
    by_cases hc : c.enabled
    · rw [if_neg (by simp [hc]), ih, List.filter_cons_of_pos (by simp [hc])]
      simp
    · rw [if_pos (by simp [hc]), ih, List.filter_cons_of_neg (by simp [hc])]

/-- Characterization of a successful allocation scan, generic in the
address accessor (`address4` for the v4 loop, `address6` for the v6 loop):
the returned address lies in the scanned interval, no client holds it, and
every smaller address of the interval is held by some client. -/
theorem findFree_some (addr : Client → Nat) (clients : List Client) (p : Cidr) (a : Nat)
    (h : (poolAddresses p).find?
        (fun ip => (clients.find? (fun c => addr c == ip)).isNone) = some a) :
    (p.start + 2 ≤ a ∧ a < p.last) ∧ (∀ c ∈ clients, addr c ≠ a) ∧
    (∀ b, p.start + 2 ≤ b → b < a → ∃ c ∈ clients, addr c = b) := by
  have h1 := find?_range_first
    (fun ip => (clients.find? (fun c => addr c == ip)).isNone)
    (p.last - p.start - 2) (p.start + 2) a h
  obtain ⟨hqa, hle, hlt, hmin⟩ := h1
  have hqa2 : (clients.find? (fun c => addr c == a)).isNone = true := hqa
  refine ⟨⟨hle, by omega⟩, ?_, ?_⟩
  · intro c hc hca
    rw [Option.isNone_iff_eq_none, List.find?_eq_none] at hqa2
    exact hqa2 c hc (by simp [hca])
  · intro b hb1 hb2
    have hq : (clients.find? (fun c => addr c == b)).isNone = false := hmin b hb1 hb2
    rcases hfind : clients.find? (fun c => addr c == b) with _ | c
    · rw [hfind] at hq
      simp at hq
    · exact ⟨c, List.mem_of_find?_eq_some hfind, by simpa using List.find?_some hfind⟩

/-- Characterization of an exhausted allocation scan, generic in the address
accessor: the scan finds nothing exactly when every address of the interval
is held by some client. -/
theorem findFree_none (addr : Client → Nat) (clients : List Client) (p : Cidr) :
    (poolAddresses p).find?
        (fun ip => (clients.find? (fun c => addr c == ip)).isNone) = none ↔
      ∀ b, p.start + 2 ≤ b → b < p.last → ∃ c ∈ clients, addr c = b := by
  rw [List.find?_eq_none]
  constructor
  · intro h b hb1 hb2
    have hq : ¬ (clients.find? (fun c => addr c == b)).isNone = true :=
      h b ((mem_poolAddresses p b).mpr ⟨hb1, hb2⟩)
    rcases hfind : clients.find? (fun c => addr c == b) with _ | c
    · rw [hfind] at hq
      simp at hq
    · exact ⟨c, List.mem_of_find?_eq_some hfind, by simpa using List.find?_some hfind⟩
  · intro h x hx hnone
    have hnone2 : (clients.find? (fun c => addr c == x)).isNone = true := hnone
    obtain ⟨hb1, hb2⟩ := (mem_poolAddresses p x).mp hx
    obtain ⟨c, hc, hca⟩ := h x hb1 hb2
    rw [Option.isNone_iff_eq_none, List.find?_eq_none] at hnone2
    exact hnone2 c hc (by simp [hca])

/-- In a registry with duplicate-free ids, looking an element's id up finds
that element itself. -/
theorem find?_id_self (l : List Client) (hids : (l.map (fun c => c.id)).Nodup)
    (x : Client) (hx : x ∈ l) : l.find? (fun d => d.id == x.id) = some x := by
  induction l with
  | nil => cases hx
  | cons c cs ih =>
    simp only [List.map_cons, List.nodup_cons] at hids
    rcases List.mem_cons.mp hx with rfl | hx2
    · simp [List.find?_cons]
    · have hne : (c.id == x.id) = false := by
        rw [beq_eq_false_iff_ne]
        intro hcx
        exact hids.1 (hcx ▸ List.mem_map_of_mem (fun d => d.id) hx2)
      simp only [List.find?_cons, hne]
      exact ih hids.2 hx2

/-- Closed form of a fold of per-id updates driven by a duplicate-free
snapshot: each element of the state is updated at most once, by the step of
the unique snapshot entry carrying its id. -/
theorem foldl_updateById_closed (p : Client → Bool) (g : Client → Client)
    (hg : ∀ c, (g c).id = c.id) :
    ∀ (snapshot st : List Client), (snapshot.map (fun c => c.id)).Nodup →
      snapshot.foldl (fun acc c => if p c then updateById acc c.id g else acc) st =
        st.map (fun x =>
          match snapshot.find? (fun d => d.id == x.id) with
          | some d => if p d then g x else x
          | none => x) := by
  intro snapshot
  induction snapshot with
  | nil =>
    intro st _
    simp
  | cons c cs ih =>
    intro st hids
    simp only [List.map_cons, List.nodup_cons] at hids
    obtain ⟨hcid, hids2⟩ := hids
    rw [List.foldl_cons]
    have hnone : ∀ v : String, v = c.id →
        cs.find? (fun d => d.id == v) = none := by
      intro v hv
      rw [List.find?_eq_none]
      intro d hd
      simp only [beq_iff_eq, hv]
      intro hdc
      exact hcid (hdc ▸ List.mem_map_of_mem (fun e => e.id) hd)
    by_cases hp : p c
    · rw [if_pos hp, ih _ hids2]
      unfold updateById
      rw [List.map_map]
      refine List.map_congr_left (fun x _ => ?_)
      simp only [Function.comp_apply]
      by_cases hx : x.id = c.id
      · have h2 : cs.find? (fun d => d.id == (g x).id) = none :=
          hnone (g x).id (by rw [hg x, hx])
        have h3 : (c.id == x.id) = true := by simp [hx]
        simp only [hx, beq_self_eq_true, if_true, h2, List.find?_cons, h3, hg]
        rw [hnone c.id rfl]
        simp [hp]
      · have h3 : (c.id == x.id) = false := by
          rw [beq_eq_false_iff_ne]
          exact fun h => hx h.symm
        have h1 : (x.id == c.id) = false := by
          rw [beq_eq_false_iff_ne]
          exact hx
        simp only [h1, Bool.false_eq_true, if_false, List.find?_cons, h3]
    · rw [if_neg hp, ih _ hids2]
      refine List.map_congr_left (fun x _ => ?_)
      by_cases hx : x.id = c.id
      · have h2 : cs.find? (fun d => d.id == x.id) = none := hnone x.id hx
        have h3 : (c.id == x.id) = true := by simp [hx]
        simp only [h2, List.find?_cons, h3]
        simp [hp]
      · have h3 : (c.id == x.id) = false := by
          rw [beq_eq_false_iff_ne]
          exact fun h => hx h.symm
        simp only [List.find?_cons, h3]

/-- A snapshot-driven fold of per-id updates applied to the snapshot itself
updates every entry exactly according to its own check. -/
theorem foldl_updateById_self (p : Client → Bool) (g : Client → Client)
    (hg : ∀ c, (g c).id = c.id) (clients : List Client)
    (hids : (clients.map (fun c => c.id)).Nodup) :
    clients.foldl (fun acc c => if p c then updateById acc c.id g else acc) clients =
      clients.map (fun x => if p x then g x else x) := by
  rw [foldl_updateById_closed p g hg clients clients hids]
  refine List.map_congr_left (fun x hx => ?_)
  rw [find?_id_self clients hids x hx]

/-- The expiration pass is a snapshot-driven fold of per-id updates with
the combined enabled-and-expired check. -/
theorem cronExpirePass_eq_fold (now : Nat) (snapshot st : List Client) :
    cronExpirePass now snapshot st =
      snapshot.foldl
        (fun acc c => if c.enabled && cronExpired now c then
          updateById acc c.id (fun x => { x with enabled := false }) else acc) st := by
  unfold cronExpirePass
  have hfun : (fun (acc : List Client) (c : Client) =>
      if !c.enabled then acc
      else if cronExpired now c then toggleClient acc c.id false else acc) =
      (fun acc c => if c.enabled && cronExpired now c then
        updateById acc c.id (fun x => { x with enabled := false }) else acc) := by
    funext acc c
    by_cases h1 : c.enabled <;> by_cases h2 : cronExpired now c <;>
      simp [h1, h2, toggleClient]
  rw [hfun]

/-- The one-time-link pass is a snapshot-driven fold of per-id updates with
the link-expired check. -/
theorem cronLinkPass_eq_fold (now : Nat) (snapshot st : List Client) :
    cronLinkPass now snapshot st =
      snapshot.foldl
        (fun acc c => if cronLinkExpired now c then
          updateById acc c.id (fun x =>
            match x.oneTimeLink with
            | some l => { x with oneTimeLink := some { l with expiresAt := now + 10 * 1000 } }
            | none => x) else acc) st := by
  unfold cronLinkPass deleteOneTimeLink
  rfl

/-- A reconciliation pass over a duplicate-free registry maps every entry
through `cronClientStep`. -/
theorem cronJob_eq_map (sys : System) (now : Nat) (clients : List Client)
    (hids : (clients.map (fun c => c.id)).Nodup) :
    cronJob sys now clients = clients.map (cronClientStep sys now) := by
  have hg1 : ∀ c : Client, (({ c with enabled := false } : Client)).id = c.id :=
    fun c => rfl
  have hg2 : ∀ c : Client,
      ((match c.oneTimeLink with
        | some l => { c with oneTimeLink := some { l with expiresAt := now + 10 * 1000 } }
        | none => c) : Client).id = c.id := by
    intro c
    cases c.oneTimeLink <;> rfl
  have hpass1 : cronExpirePass now clients clients =
      clients.map (fun x => if x.enabled && cronExpired now x then
        { x with enabled := false } else x) := by
    rw [cronExpirePass_eq_fold]
    exact foldl_updateById_self _ _ hg1 clients hids
  unfold cronJob
  by_cases hA : sys.clientExpiration.enabled <;>
    by_cases hB : sys.oneTimeLinks.enabled <;>
    simp only [hA, hB, if_true, if_false, Bool.false_eq_true]
  · rw [cronLinkPass_eq_fold,
        foldl_updateById_closed _ _ hg2 clients (cronExpirePass now clients clients) hids,
        hpass1, List.map_map]
    refine List.map_congr_left (fun x hx => ?_)
    simp only [Function.comp_apply]
    have hidstep : ((if x.enabled && cronExpired now x
        then ({ x with enabled := false } : Client) else x)).id = x.id := by
      by_cases h : x.enabled && cronExpired now x <;> simp [h]
    have hfind : clients.find? (fun d => d.id ==
        ((if x.enabled && cronExpired now x then ({ x with enabled := false } : Client)
          else x)).id) = some x := by
      rw [hidstep]
      exact find?_id_self clients hids x hx
    rw [hfind]
    unfold cronClientStep
    simp only [hA, hB, Bool.true_and]
  · rw [hpass1]
    refine List.map_congr_left (fun x hx => ?_)
    unfold cronClientStep
    simp only [hA, hB, Bool.true_and, Bool.false_and, if_false, Bool.false_eq_true]
  · rw [cronLinkPass_eq_fold, foldl_updateById_self _ _ hg2 clients hids]
    refine List.map_congr_left (fun x hx => ?_)
    unfold cronClientStep
    simp only [hA, hB, Bool.true_and, Bool.false_and, if_false, Bool.false_eq_true]
  · have hid : clients.map (cronClientStep sys now) = clients.map (fun x => x) :=
      List.map_congr_left (fun x _ => by
        unfold cronClientStep
        simp only [hA, hB, Bool.false_and, Bool.false_eq_true, if_false])
    rw [hid]
    simp

/-- The enabled flag after one reconciliation step. -/
theorem cronClientStep_enabled (sys : System) (now : Nat) (c : Client) :
    (cronClientStep sys now c).enabled =
      if sys.clientExpiration.enabled && (c.enabled && cronExpired now c) then false
      else c.enabled := by
  unfold cronClientStep
  by_cases h1 : sys.clientExpiration.enabled && (c.enabled && cronExpired now c) <;>
    by_cases h2 : sys.oneTimeLinks.enabled && cronLinkExpired now c <;>
    cases hol : c.oneTimeLink <;>
    simp [h1, h2, hol]

/-- The one-time link after one reconciliation step. -/
theorem cronClientStep_oneTimeLink (sys : System) (now : Nat) (c : Client) :
    (cronClientStep sys now c).oneTimeLink =
      if sys.oneTimeLinks.enabled && cronLinkExpired now c then
        c.oneTimeLink.map (fun l => { l with expiresAt := now + 10 * 1000 })
      else c.oneTimeLink := by
  unfold cronClientStep
  by_cases h1 : sys.clientExpiration.enabled && (c.enabled && cronExpired now c) <;>
    by_cases h2 : sys.oneTimeLinks.enabled && cronLinkExpired now c <;>
    cases hol : c.oneTimeLink <;>
    simp [h1, h2, hol]

/-- A reconciliation step touches nothing but `enabled` and the
one-time link. -/
theorem cronClientStep_frame (sys : System) (now : Nat) (c : Client) :
    (cronClientStep sys now c).id = c.id ∧ (cronClientStep sys now c).name = c.name ∧
    (cronClientStep sys now c).address4 = c.address4 ∧
    (cronClientStep sys now c).address6 = c.address6 ∧
    (cronClientStep sys now c).expiresAt = c.expiresAt := by
  unfold cronClientStep
  by_cases h1 : sys.clientExpiration.enabled && (c.enabled && cronExpired now c) <;>
    by_cases h2 : sys.oneTimeLinks.enabled && cronLinkExpired now c <;>
    cases hol : c.oneTimeLink <;>
    simp [h1, h2, hol]

/-- Claim C6: over a registry with duplicate-free ids, one reconciliation
pass disables every enabled client whose expiration timestamp is past (when
the expiration feature is on), leaves the enabled flag of already-disabled
clients and of clients without an expiration untouched, pushes the expiry
of every past-due one-time link to `now + 10 * 1000` (when the link feature
is on, via `deleteOneTimeLink`), leaves clients without a link linkless,
and changes no other field. -/
theorem c6_reconciliation_pass (sys : System) (now : Nat) (clients : List Client)
    (hids : (clients.map (fun c => c.id)).Nodup)
    (i : Nat) (hi : i < clients.length) (hr : i < (cronJob sys now clients).length) :
    (sys.clientExpiration.enabled = true → (clients.get ⟨i, hi⟩).enabled = true →
      ∀ e, (clients.get ⟨i, hi⟩).expiresAt = some e → e < now →
        ((cronJob sys now clients).get ⟨i, hr⟩).enabled = false) ∧
    ((clients.get ⟨i, hi⟩).enabled = false →
      ((cronJob sys now clients).get ⟨i, hr⟩).enabled = false) ∧
    ((clients.get ⟨i, hi⟩).expiresAt = none →
      ((cronJob sys now clients).get ⟨i, hr⟩).enabled = (clients.get ⟨i, hi⟩).enabled) ∧
    (sys.oneTimeLinks.enabled = true →
      ∀ l, (clients.get ⟨i, hi⟩).oneTimeLink = some l → l.expiresAt < now →
        ((cronJob sys now clients).get ⟨i, hr⟩).oneTimeLink =
          some { l with expiresAt := now + 10 * 1000 }) ∧
    ((clients.get ⟨i, hi⟩).oneTimeLink = none →
      ((cronJob sys now clients).get ⟨i, hr⟩).oneTimeLink = none) ∧
    ((cronJob sys now clients).get ⟨i, hr⟩).id = (clients.get ⟨i, hi⟩).id ∧
    ((cronJob sys now clients).get ⟨i, hr⟩).name = (clients.get ⟨i, hi⟩).name ∧
    ((cronJob sys now clients).get ⟨i, hr⟩).address4 = (clients.get ⟨i, hi⟩).address4 ∧
    ((cronJob sys now clients).get ⟨i, hr⟩).address6 = (clients.get ⟨i, hi⟩).address6 ∧
    ((cronJob sys now clients).get ⟨i, hr⟩).expiresAt = (clients.get ⟨i, hi⟩).expiresAt := by
  have hmap := cronJob_eq_map sys now clients hids
  have hget : (cronJob sys now clients).get ⟨i, hr⟩ =
      cronClientStep sys now (clients.get ⟨i, hi⟩) := by
    have haux : ∀ (l : List Client), l = clients.map (cronClientStep sys now) →
        ∀ (hr2 : i < l.length),
        l.get ⟨i, hr2⟩ = cronClientStep sys now (clients.get ⟨i, hi⟩) := by
      intro l hl
      subst hl
      intro hr2
      simp [List.get_eq_getElem, List.getElem_map]
    exact haux _ hmap hr
  rw [hget]
  obtain ⟨hid, hname, ha4, ha6, hexp⟩ :=
    cronClientStep_frame sys now (clients.get ⟨i, hi⟩)
  simp only [List.get_eq_getElem] at hid hname ha4 ha6 hexp ⊢
  refine ⟨?_, ?_, ?_, ?_, ?_, hid, hname, ha4, ha6, hexp⟩
  · intro hA hen e he helt
    rw [cronClientStep_enabled]
    have hce : cronExpired now clients[i] = true := by
      unfold cronExpired
      rw [he]
      simpa using helt
    simp [hA, hen, hce]
  · intro hen
    rw [cronClientStep_enabled, hen]
    simp
  · intro hnone
    rw [cronClientStep_enabled]
    have hce : cronExpired now clients[i] = false := by
      unfold cronExpired
      rw [hnone]
    simp [hce]
  · intro hB l hl helt
    rw [cronClientStep_oneTimeLink]
    have hce : cronLinkExpired now clients[i] = true := by
      unfold cronLinkExpired
      rw [hl]
      simpa using helt
    simp [hB, hce, hl]
  · intro hnone
    rw [cronClientStep_oneTimeLink, hnone]
    simp

/-- Witness for C6: over the sample system (both features on) at time 100,
the sample client whose expiration (50) and link expiry (30) are past is
disabled by the pass and its link expiry moves to 10100. -/
theorem c6_witness :
    ((cronJob systemA 100 [clientA, clientB]).get ⟨1, by decide⟩).enabled = false ∧
    ((cronJob systemA 100 [clientA, clientB]).get ⟨1, by decide⟩).oneTimeLink =
      some { oneTimeLink := "tok", expiresAt := 10100 } := by
  have h := c6_reconciliation_pass systemA 100 [clientA, clientB] (by decide)
    1 (by decide) (by decide)
  exact ⟨h.1 rfl rfl 50 rfl (by decide),
         h.2.2.2.1 rfl { oneTimeLink := "tok", expiresAt := 30 } rfl (by decide)⟩

/-- Claim C1 as stated is false: `updateAddress4` writes the given address
without any uniqueness check, so on a registry satisfying the invariant it
can assign client `"b"` the address client `"a"` already holds, breaking
v4-address uniqueness. -/
theorem c1_counterexample_updateAddress4 :
    addressesUnique [clientA, clientB] ∧
    ¬ addressesUnique (updateAddress4 [clientA, clientB] "b" 2) := by
  constructor
  · exact ⟨by decide, by decide⟩
  · intro h
    exact absurd h.1 (by decide)

/-- Claim C1, amended: the address-uniqueness invariant is preserved by
`createClient` (its scans only pick addresses no client holds) and by every
registry mutator that does not write an address — `toggle`, `updateName`,
`updateExpirationDate`, `createOneTimeLink`, `deleteOneTimeLink`, `delete` —
but `updateAddress4` performs no uniqueness check and can break it. -/
theorem c1_uniqueness_preservation (sys : System) (clients : List Client)
    (pk pub psk uuid : String) (now : Nat) (endOfDay : Nat → Nat)
    (name : String) (expireDate : Option Nat)
    (h : addressesUnique clients) :
    addressesUnique
      (createClient sys clients pk pub psk uuid now endOfDay name expireDate).clients ∧
    (∀ id enable, addressesUnique (toggleClient clients id enable)) ∧
    (∀ id nm, addressesUnique (updateClientName clients id nm)) ∧
    (∀ id d, addressesUnique (updateExpirationDate clients id d)) ∧
    (∀ id link, addressesUnique (createOneTimeLink clients id link)) ∧
    (∀ t id, addressesUnique (deleteOneTimeLink t clients id)) ∧
    (∀ id, addressesUnique (deleteClient clients id)) := by
  obtain ⟨h4, h6⟩ := h
  have hupd : ∀ (id : String) (g : Client → Client),
      (∀ c, (g c).address4 = c.address4) → (∀ c, (g c).address6 = c.address6) →
      addressesUnique (updateById clients id g) := by
    intro id g hg4 hg6
    exact ⟨by rw [map_field_updateById clients id g _ hg4]; exact h4,
           by rw [map_field_updateById clients id g _ hg6]; exact h6⟩
  refine ⟨?_, fun id enable => hupd id _ (fun c => rfl) (fun c => rfl),
          fun id nm => hupd id _ (fun c => rfl) (fun c => rfl),
          fun id d => hupd id _ (fun c => rfl) (fun c => rfl),
          fun id link => hupd id _ (fun c => rfl) (fun c => rfl),
          fun t id => hupd id _ ?_ ?_,
          fun id => ⟨?_, ?_⟩⟩
  · unfold createClient
    rcases hf4 : findFreeAddress4 clients sys.userConfig.address4Range with _ | a4
    · exact ⟨h4, h6⟩
    · rcases hf6 : findFreeAddress6 clients sys.userConfig.address6Range with _ | a6
      · exact ⟨h4, h6⟩
      · have hfree4 := (findFree_some (fun c => c.address4) clients _ _ hf4).2.1
        have hfree6 := (findFree_some (fun c => c.address6) clients _ _ hf6).2.1
        constructor
        · rw [List.map_append]
          refine nodup_append_singleton _ _ h4 ?_
          intro hmem
          obtain ⟨c, hc, hca⟩ := List.mem_map.mp hmem
          exact hfree4 c hc hca
        · rw [List.map_append]
          refine nodup_append_singleton _ _ h6 ?_
          intro hmem
          obtain ⟨c, hc, hca⟩ := List.mem_map.mp hmem
          exact hfree6 c hc hca
  · intro c
    cases c.oneTimeLink <;> rfl
  · intro c
    cases c.oneTimeLink <;> rfl
  · exact List.Nodup.sublist (List.Sublist.map _ (List.filter_sublist _)) h4
  · exact List.Nodup.sublist (List.Sublist.map _ (List.filter_sublist _)) h6

/-- Witness for C1's amended theorem: creating a client over the sample
registry (addresses `2`/`3` taken) keeps both address lists
duplicate-free. -/
theorem c1_witness :
    addressesUnique
      (createClient systemA [clientA, clientB] "pk" "pub" "psk" "u" 0 id "N" none).clients :=
  (c1_uniqueness_preservation systemA [clientA, clientB] "pk" "pub" "psk" "u" 0 id
    "N" none ⟨by decide, by decide⟩).1

/-- Claim C2: per family, the allocation inside `createClient` scans the
addresses from the pool base plus 2 up to (not including) the pool's last
address, returns the first one no existing client holds, and when every
address of that range is held it fails with the 409 pool-exhaustion error
and mutates nothing. -/
theorem c2_allocation_scan (sys : System) (clients : List Client)
    (pk pub psk uuid : String) (now : Nat) (endOfDay : Nat → Nat)
    (name : String) (expireDate : Option Nat) :
    (∀ p a, a ∈ poolAddresses p ↔ p.start + 2 ≤ a ∧ a < p.last) ∧
    (∀ p a, findFreeAddress4 clients p = some a →
        (p.start + 2 ≤ a ∧ a < p.last) ∧ (∀ c ∈ clients, c.address4 ≠ a) ∧
        (∀ b, p.start + 2 ≤ b → b < a → ∃ c ∈ clients, c.address4 = b)) ∧
    (∀ p a, findFreeAddress6 clients p = some a →
        (p.start + 2 ≤ a ∧ a < p.last) ∧ (∀ c ∈ clients, c.address6 ≠ a) ∧
        (∀ b, p.start + 2 ≤ b → b < a → ∃ c ∈ clients, c.address6 = b)) ∧
    (∀ p, findFreeAddress4 clients p = none ↔
        ∀ b, p.start + 2 ≤ b → b < p.last → ∃ c ∈ clients, c.address4 = b) ∧
    (∀ p, findFreeAddress6 clients p = none ↔
        ∀ b, p.start + 2 ≤ b → b < p.last → ∃ c ∈ clients, c.address6 = b) ∧
    (findFreeAddress4 clients sys.userConfig.address4Range = none →
        createClient sys clients pk pub psk uuid now endOfDay name expireDate =
          { clients := clients, actions := [],
            err := some { statusCode := 409,
                          statusMessage := "Maximum number of clients reached.",
                          cause := some "IPv4 Address Pool exhausted" } }) ∧
    (∀ a4, findFreeAddress4 clients sys.userConfig.address4Range = some a4 →
        findFreeAddress6 clients sys.userConfig.address6Range = none →
        createClient sys clients pk pub psk uuid now endOfDay name expireDate =
          { clients := clients, actions := [],
            err := some { statusCode := 409,
                          statusMessage := "Maximum number of clients reached.",
                          cause := some "IPv6 Address Pool exhausted" } }) ∧
    ((createClient sys clients pk pub psk uuid now endOfDay name expireDate).err = none →
        ∃ c, (createClient sys clients pk pub psk uuid now endOfDay
                name expireDate).clients = clients ++ [c] ∧
          findFreeAddress4 clients sys.userConfig.address4Range = some c.address4 ∧
          findFreeAddress6 clients sys.userConfig.address6Range = some c.address6) := by
  refine ⟨fun p a => mem_poolAddresses p a,
          fun p a h => findFree_some (fun c => c.address4) clients p a h,
          fun p a h => findFree_some (fun c => c.address6) clients p a h,
          fun p => findFree_none (fun c => c.address4) clients p,
          fun p => findFree_none (fun c => c.address6) clients p,
          ?_, ?_, ?_⟩
  · intro h4
    unfold createClient
    rw [h4]
  · intro a4 h4 h6
    unfold createClient
    rw [h4, h6]
  · intro herr
    unfold createClient at herr ⊢
    rcases h4 : findFreeAddress4 clients sys.userConfig.address4Range with _ | a4
    · rw [h4] at herr
      simp at herr
    · rcases h6 : findFreeAddress6 clients sys.userConfig.address6Range with _ | a6
      · rw [h4, h6] at herr
        simp at herr
      · exact ⟨_, rfl, rfl, rfl⟩

/-- Witness for C2: over the sample system (pool `⟨0, 6⟩`, candidates
`2..5`) with clients holding `2` and `3`, the scan returns an address in the
range; instantiated at the computed result `4`. -/
theorem c2_witness :
    systemA.userConfig.address4Range.start + 2 ≤ 4 ∧
    4 < systemA.userConfig.address4Range.last :=
  ((c2_allocation_scan systemA [clientA, clientB] "pk" "pub" "psk" "u" 0 id "N" none).2.1
    systemA.userConfig.address4Range 4 (by decide)).1

/-- Claim C3: `createClient` is all-or-nothing across the two address
families — if either family's scan finds no free address, it throws a 409
conflict, the registry is unchanged, and no persist / config write / sync
effect is performed. -/
theorem c3_create_client_all_or_nothing (sys : System) (clients : List Client)
    (pk pub psk uuid : String) (now : Nat) (endOfDay : Nat → Nat)
    (name : String) (expireDate : Option Nat)
    (h : findFreeAddress4 clients sys.userConfig.address4Range = none ∨
         findFreeAddress6 clients sys.userConfig.address6Range = none) :
    ∃ e, (createClient sys clients pk pub psk uuid now endOfDay
            name expireDate).err = some e ∧
      e.statusCode = 409 ∧
      (createClient sys clients pk pub psk uuid now endOfDay
        name expireDate).clients = clients ∧
      (createClient sys clients pk pub psk uuid now endOfDay
        name expireDate).actions = [] := by
  unfold createClient
  rcases h4 : findFreeAddress4 clients sys.userConfig.address4Range with _ | a4
  · exact ⟨_, rfl, rfl, rfl, rfl⟩
  · rcases h6 : findFreeAddress6 clients sys.userConfig.address6Range with _ | a6
    · exact ⟨_, rfl, rfl, rfl, rfl⟩
    · rcases h with h | h
      · rw [h4] at h
        cases h
      · rw [h6] at h
        cases h

/-- Witness for C3: the sample system whose v4 pool has no candidate
address at all makes client creation fail with a 409 and no effect. -/
theorem c3_witness :
    ∃ e, (createClient systemB [] "pk" "pub" "psk" "u" 0 id "N" none).err = some e ∧
      e.statusCode = 409 ∧
      (createClient systemB [] "pk" "pub" "psk" "u" 0 id "N" none).clients = [] ∧
      (createClient systemB [] "pk" "pub" "psk" "u" 0 id "N" none).actions = [] :=
  c3_create_client_all_or_nothing systemB [] "pk" "pub" "psk" "u" 0 id "N" none
    (Or.inl (by decide))

/-- An interface block carries no peer key. -/
theorem peerPublicKeys_cons_interface (sys : System) (bs : List ConfigBlock) :
    peerPublicKeys (ConfigBlock.interfaceBlock sys :: bs) = peerPublicKeys bs := by
  simp [peerPublicKeys]

/-- The keys of a run of peer blocks are the rendered clients' keys. -/
theorem peerPublicKeys_map_peer (l : List Client) :
    peerPublicKeys (l.map ConfigBlock.peerBlock) = l.map (fun c => c.publicKey) := by
  induction l with
  | nil => rfl
  | cons c cs ih => simpa [peerPublicKeys] using ih

/-- Claim C4: the full rendered configuration is exactly one interface block
followed by exactly one peer block per enabled client, in registry iteration
order; disabled clients contribute no block, and the public keys carried by
the peer blocks are exactly the enabled clients' keys (so a disabled
client's key, shared with no enabled client, does not appear). -/
theorem c4_rendered_config_blocks (sys : System) (clients : List Client) :
    saveWireguardConfigBlocks sys clients =
      ConfigBlock.interfaceBlock sys ::
        (clients.filter (fun c => c.enabled)).map ConfigBlock.peerBlock ∧
    peerPublicKeys (saveWireguardConfigBlocks sys clients) =
      (clients.filter (fun c => c.enabled)).map (fun c => c.publicKey) := by
  have h := foldl_peer_blocks clients [ConfigBlock.interfaceBlock sys]
  constructor
  · simpa [saveWireguardConfigBlocks] using h
  · rw [saveWireguardConfigBlocks, h, List.singleton_append,
        peerPublicKeys_cons_interface, peerPublicKeys_map_peer]

/-- Claim C5 (failing input): `Startup`'s wait promise checks
`Database.connected` only at its single scheduled callback run; with a
repository that connects at tick 2 — i.e. after that check — `Startup`
performs none of its steps (no save, no interface up, no sync), although the
repository does report connected from tick 2 on. -/
theorem c5_startup_hangs_when_connect_is_late :
    (fun t => decide (2 ≤ t)) 2 = true ∧
    startupSteps (fun t => decide (2 ≤ t)) = [] := by
  constructor
  · decide
  · decide

/-- Claim C7: `InMemory.saveUser` and `LowDBUser.update` reassign a local
alias to the looked-up record instead of writing the given record through,
so for a user present in the store the stored collection is unchanged. -/
theorem c7_user_update_is_noop (data : InMemoryData) (users : List User) (user : User)
    (_hmem : ∃ v ∈ data.users, v.id = user.id)
    (_hmemLow : ∃ v ∈ users, v.id = user.id) :
    saveUser data user = data ∧ lowdbUserUpdate users user = users := by
  constructor
  · unfold saveUser
    cases getUser data user.id <;> rfl
  · unfold lowdbUserUpdate
    cases users.find? (fun u => u.id == user.id) <;> rfl

/-- Witness for C7: updating the sample user stored in a one-element
collection leaves both backends' collections unchanged. -/
theorem c7_witness :
    saveUser { users := [userA] } userA = { users := [userA] } ∧
    lowdbUserUpdate [userA] userA = [userA] :=
  c7_user_update_is_noop { users := [userA] } [userA] userA
    ⟨userA, by simp⟩ ⟨userA, by simp⟩

/-- Claim C9 as stated is false for the file-backed backend:
`LowDBUser.create` performs no username-length validation, so creating the
one-character username `"a"` (shorter than the minimum length 8) succeeds
and appends the user to the collection instead of failing. -/
theorem c9_counterexample_lowdb_accepts_short_username :
    "a".length < 8 ∧
    lowdbUserCreate (fun _ => "pw") 0 "u-1" [] "a" "secret" =
      Except.ok [{ id := "u-1", password := "pw", username := "a",
                   name := some "Administrator", role := Role.admin,
                   enabled := true, createdAt := 0, updatedAt := 0 }] := by
  constructor
  · decide
  · rfl

/-- Claim C9, amended: in the in-memory backend, `newUserWithPassword` with
a username shorter than 8 throws `ERROR_USERNAME_LEN` before touching the
collection, for every password; the file-backed `create` does not validate
the length. -/
theorem c9_short_username_rejected (strong : String → Bool)
    (hashPw : String → String) (now : Nat) (data : InMemoryData)
    (username password : String) (h : username.length < 8) :
    newUserWithPassword strong hashPw now data username password =
      Except.error DatabaseError.errorUsernameLen := by
  unfold newUserWithPassword
  simp [h]

/-- Witness for C9's amended theorem at the concrete username `"a"`. -/
theorem c9_witness :
    newUserWithPassword (fun _ => true) (fun _ => "pw") 0 { users := [] } "a" "secret" =
      Except.error DatabaseError.errorUsernameLen :=
  c9_short_username_rejected (fun _ => true) (fun _ => "pw") 0 { users := [] }
    "a" "secret" (by decide)

/-- Claim C10: `deleteOneTimeLink` does not remove a present link record —
it rewrites its expiry to `now + 10 * 1000` milliseconds — leaves a client
without a link untouched, and leaves every other client untouched. -/
theorem c10_delete_one_time_link (now : Nat) (clients : List Client) (id : String)
    (i : Nat) (hi : i < clients.length)
    (hr : i < (deleteOneTimeLink now clients id).length) :
    ((clients.get ⟨i, hi⟩).id = id →
      (∀ l, (clients.get ⟨i, hi⟩).oneTimeLink = some l →
        (deleteOneTimeLink now clients id).get ⟨i, hr⟩ =
          { clients.get ⟨i, hi⟩ with
            oneTimeLink := some { l with expiresAt := now + 10 * 1000 } }) ∧
      ((clients.get ⟨i, hi⟩).oneTimeLink = none →
        (deleteOneTimeLink now clients id).get ⟨i, hr⟩ = clients.get ⟨i, hi⟩)) ∧
    ((clients.get ⟨i, hi⟩).id ≠ id →
      (deleteOneTimeLink now clients id).get ⟨i, hr⟩ = clients.get ⟨i, hi⟩) := by
  have hget : (deleteOneTimeLink now clients id).get ⟨i, hr⟩ =
      (fun c => if c.id == id then
        match c.oneTimeLink with
        | some l => { c with oneTimeLink := some { l with expiresAt := now + 10 * 1000 } }
        | none => c
       else c) (clients.get ⟨i, hi⟩) := by
    simp [deleteOneTimeLink, updateById]
  simp only [List.get_eq_getElem] at hget ⊢
  refine ⟨fun hid => ⟨fun l hl => ?_, fun hl => ?_⟩, fun hid => ?_⟩
  · rw [hget]
    simp [hid, hl]
  · rw [hget]
    simp [hid, hl]
  · rw [hget]
    simp [hid]

/-- Witness for C10: erasing the sample client's one-time link record keeps
the record and moves its expiry to `100 + 10000`. -/
theorem c10_witness :
    (deleteOneTimeLink 100 [clientA, clientB] "b").get ⟨1, by decide⟩ =
      { clientB with oneTimeLink := some { oneTimeLink := "tok", expiresAt := 10100 } } :=
  ((c10_delete_one_time_link 100 [clientA, clientB] "b" 1 (by decide)
      (by decide)).1 rfl).1 { oneTimeLink := "tok", expiresAt := 30 } rfl

/-- Inversion of a successful in-memory user creation: the new collection is
the old one with the freshly built user appended, whose role is `ADMIN`
exactly when the collection was empty. -/
theorem newUserWithPassword_ok (strong : String → Bool) (hashPw : String → String)
    (now : Nat) (data : InMemoryData) (username password : String)
    (data2 : InMemoryData)
    (h : newUserWithPassword strong hashPw now data username password =
      Except.ok data2) :
    data2.users = data.users ++
      [{ id := toString (data.users.length + 1), password := hashPw password,
         username := username, name := none,
         role := if data.users.length = 0 then Role.admin else Role.client,
         enabled := true, createdAt := now, updatedAt := now }] := by
  unfold newUserWithPassword at h
  split at h
  · cases h
  · split at h
    · cases h
    · rcases hf : data.users.find? (fun u => u.username == username) with _ | u <;>
        rw [hf] at h
      · injection h with h2
        rw [← h2]
      · cases h

/-- Inversion of a successful LowDB user creation. -/
theorem lowdbUserCreate_ok (hashPw : String → String) (now : Nat)
    (uuid : String) (users : List User) (username password : String)
    (users2 : List User)
    (h : lowdbUserCreate hashPw now uuid users username password =
      Except.ok users2) :
    users2 = users ++
      [{ id := uuid, password := hashPw password, username := username,
         name := some "Administrator",
         role := if users.length = 0 then Role.admin else Role.client,
         enabled := true, createdAt := now, updatedAt := now }] := by
  unfold lowdbUserCreate at h
  rcases hf : users.find? (fun u => u.username == username) with _ | u <;>
    rw [hf] at h
  · injection h with h2
    rw [← h2]
  · cases h

/-- The appended-user shape propagates the positional role invariant. -/
theorem roles_append (users : List User) (u : User)
    (hrole : u.role = if users.length = 0 then Role.admin else Role.client)
    (ih : ∀ i (hi : i < users.length),
      (users.get ⟨i, hi⟩).role = if i = 0 then Role.admin else Role.client) :
    ∀ i (hi : i < (users ++ [u]).length),
      ((users ++ [u]).get ⟨i, hi⟩).role = if i = 0 then Role.admin else Role.client := by
  intro i hi
  simp only [List.get_eq_getElem] at ih ⊢
  rw [List.length_append, List.length_singleton] at hi
  by_cases hlt : i < users.length
  · rw [List.getElem_append_left hlt]
    exact ih i hlt
  · have hieq : i = users.length := by omega
    subst hieq
    rw [List.getElem_concat_length]
    rw [hrole]
    by_cases h0 : users.length = 0 <;> simp [h0]

/-- Positional roles in any reachable in-memory users collection. -/
theorem reachable_roles (users : List User) (h : ReachableUsers users) :
    ∀ i (hi : i < users.length),
      (users.get ⟨i, hi⟩).role = if i = 0 then Role.admin else Role.client := by
  induction h with
  | init =>
    intro i hi
    cases hi
  | step users strong hashPw now username password users2 _hr heq ih =>
    have husers : users2 = users ++
        [{ id := toString (users.length + 1), password := hashPw password,
           username := username, name := none,
           role := if users.length = 0 then Role.admin else Role.client,
           enabled := true, createdAt := now, updatedAt := now }] :=
      newUserWithPassword_ok strong hashPw now ⟨users⟩ username password ⟨users2⟩ heq
    rw [husers]
    exact roles_append users _ rfl ih

/-- Positional roles in any reachable LowDB users collection. -/
theorem reachableLow_roles (users : List User) (h : ReachableLowUsers users) :
    ∀ i (hi : i < users.length),
      (users.get ⟨i, hi⟩).role = if i = 0 then Role.admin else Role.client := by
  induction h with
  | init =>
    intro i hi
    cases hi
  | step users hashPw now uuid username password users2 _hr heq ih =>
    have husers := lowdbUserCreate_ok hashPw now uuid users username password users2 heq
    rw [husers]
    exact roles_append users _ rfl ih

/-- Claim C8: in every collection reachable by a sequence of user creations
(in-memory or LowDB backend), the user created into the empty collection —
position 0 — has role `ADMIN` and every user created into a non-empty
collection has role `CLIENT`. -/
theorem c8_first_user_admin_rest_client (users lowUsers : List User)
    (h : ReachableUsers users) (hlow : ReachableLowUsers lowUsers) :
    (∀ i (hi : i < users.length),
      (users.get ⟨i, hi⟩).role = if i = 0 then Role.admin else Role.client) ∧
    (∀ i (hi : i < lowUsers.length),
      (lowUsers.get ⟨i, hi⟩).role = if i = 0 then Role.admin else Role.client) :=
  ⟨reachable_roles users h, reachableLow_roles lowUsers hlow⟩

/-- Witness for C8: a concrete two-user reachable in-memory collection and a
one-user reachable LowDB collection; the second in-memory user is `CLIENT`,
the first of each is `ADMIN`. -/
theorem c8_witness :
    ([userA, userB].get ⟨1, by decide⟩).role = Role.client ∧
    ([userA, userB].get ⟨0, by decide⟩).role = Role.admin ∧
    ([lowUserA].get ⟨0, by decide⟩).role = Role.admin := by
  have h1 : ReachableUsers [userA] :=
    ReachableUsers.step [] (fun _ => true) (fun _ => "pw") 0 "adminadmin" "secret"
      [userA] ReachableUsers.init rfl
  have h2 : ReachableUsers [userA, userB] :=
    ReachableUsers.step [userA] (fun _ => true) (fun _ => "pw") 0 "clientclient"
      "secret" [userA, userB] h1 rfl
  have hl1 : ReachableLowUsers [lowUserA] :=
    ReachableLowUsers.step [] (fun _ => "pw") 0 "u-1" "adminadmin" "secret"
      [lowUserA] ReachableLowUsers.init rfl
  have h := c8_first_user_admin_rest_client [userA, userB] [lowUserA] h2 hl1
  exact ⟨h.1 1 (by decide), h.1 0 (by decide), h.2 0 (by decide)⟩

end WgEasy
